import Mathlib

/-!
Verification of the reform CRUD execution engine (package reform and its
dialect packages).  The Go source is embedded shallowly: every Querier
operation becomes a pure Lean function from an explicit record value and a
stubbed connection to a result, the updated record value, and a trace of the
hook invocations and SQL calls the operation performed.  Machine integers of
the source (int64 row counts and ids) are modelled as Int.
-/

set_option linter.unusedVariables false

namespace Reform

/-- SQL-level values carried in records and bound as statement arguments.
Go passes them as interface values; the model uses a small closed universe
(NULL, integers, strings) which suffices for the claims. -/
inductive Value where
  | vnull
  | vint (i : Int)
  | vstr (s : String)
  deriving DecidableEq, Repr

/-- Zero test used by the generated HasPK implementations: a primary key is
"set" when its field differs from the zero value of its type. -/
def Value.isZero : Value → Bool
  | .vnull => true
  | .vint i => i == 0
  | .vstr s => s == ""

/-- Errors of the engine.  noRows models the ErrNoRows sentinel
(sql.ErrNoRows), noPK models ErrNoPK; the remaining constructors model the
fmt.Errorf values built inline by the source, and `other` stands for
arbitrary driver or hook errors supplied by a stubbed connection.
`pkMismatch` carries the sid identities of the two records the Go error
message formats with %s. -/
inductive Err where
  | noRows
  | noPK
  | willNotUpdatePK (col : String)
  | unexpectedColumns (cols : List String)
  | differentTables (a b : String)
  | pkMismatch (first second : Nat)
  | nothingToUpdate
  | scanMismatch (got expected : Nat)
  | other (n : Nat)
  deriving DecidableEq, Repr

/-- Result of an operation that in Go returns error but may also panic:
fatal models a Go panic (the row-count invariant violations). -/
inductive Res (α : Type) where
  | ok (a : α)
  | err (e : Err)
  | fatal (msg : String)
  deriving DecidableEq, Repr

/-- Observable actions of one operation, in chronological order: the three
Connection-primitive calls (with the final query text and the bound
argument list) and the three hook invocations (with the identity of the
record whose hook ran). -/
inductive Event where
  | exec (query : String) (args : List Value)
  | query (query : String) (args : List Value)
  | queryRow (query : String) (args : List Value)
  | hookBI (sid : Nat)
  | hookBU (sid : Nat)
  | hookAF (sid : Nat)
  deriving DecidableEq, Repr

/-- Tests whether an event is a call to the Connection primitive. -/
def Event.isSQL : Event → Bool
  | .exec _ _ => true
  | .query _ _ => true
  | .queryRow _ _ => true
  | _ => false

/-- SQL calls contained in a trace. -/
def sqlEvents (evs : List Event) : List Event := evs.filter Event.isSQL

/-- Argument lists bound by the SQL calls of a trace, in order. -/
def sqlArgLists (evs : List Event) : List (List Value) :=
  evs.filterMap (fun e =>
    match e with
    | .exec _ a => some a
    | .query _ a => some a
    | .queryRow _ a => some a
    | _ => none)

/-- LastInsertIdMethod from the source: the three ways a dialect reports a
generated primary key. -/
inductive LastInsertIdMethod where
  | lastInsertId
  | returning
  | outputInserted
  deriving DecidableEq, Repr

/-- SelectLimitMethod from the source. -/
inductive SelectLimitMethod where
  | limit
  | selectTop
  deriving DecidableEq, Repr

deriving instance DecidableEq for Except

/-- Result object of a Connection-primitive Exec, modelling sql.Result:
both accessors may themselves fail. -/
structure ExecResult where
  lastInsertId : Except Err Int
  rowsAffected : Except Err Int
  deriving DecidableEq, Repr

/-- Stub of an sql.Rows cursor: steps are the successive Next+Scan outcomes
(a scanned row, or a scan failure), termErr is what rows.Err() reports once
Next returns false, closeErr is what rows.Close() reports. -/
structure RowsStub where
  steps : List (Except Err (List Value))
  termErr : Option Err
  closeErr : Option Err
  deriving DecidableEq, Repr

end Reform

namespace Reform

/-! os.Expand, used by the source on every Exec/Query text to resolve
$name / $-brace-name tokens through View.ToCol.  Modelled after the Go
standard library implementation (brace characters are written via
Char.ofNat to keep them out of string literals). -/

/-- Character class of Go's isShellSpecialVar. -/
def isShellSpecialVar (c : Char) : Bool :=
  c = '*' || c = '#' || c = '$' || c = '@' || c = '!' || c = '?' || c = '-' ||
  ('0' ≤ c && c ≤ '9')

/-- Character class of Go's isAlphaNum. -/
def isAlphaNum (c : Char) : Bool :=
  c = '_' || ('0' ≤ c && c ≤ '9') || ('a' ≤ c && c ≤ 'z') || ('A' ≤ c && c ≤ 'Z')

/-- Scans for a closing brace starting at running index i, returning the
name collected so far and the width consumed (Go getShellName's loop). -/
def scanToCloseBrace : List Char → Nat → Option (List Char × Nat)
  | [], _ => none
  | c :: rest, i =>
    if c = Char.ofNat 125 then some ([], i + 1)
    else
      match scanToCloseBrace rest (i + 1) with
      | some (nm, w) => some (c :: nm, w)
      | none => none

/-- Go os package getShellName: name of the variable reference at the head
of the list and the number of characters it spans. -/
def getShellName : List Char → List Char × Nat
  | [] => ([], 0)
  | c :: rest =>
    if c = Char.ofNat 123 then
      match rest with
      | c1 :: c2 :: _ =>
        if isShellSpecialVar c1 && c2 = Char.ofNat 125 then ([c1], 3)
        else
          match scanToCloseBrace rest 1 with
          | some (nm, w) => (nm, w)
          | none => ([], 1)
      | _ =>
        match scanToCloseBrace rest 1 with
        | some (nm, w) => (nm, w)
        | none => ([], 1)
    else if isShellSpecialVar c then ([c], 1)
    else
      let nm := List.takeWhile isAlphaNum (c :: rest)
      (nm, nm.length)

/-- Fuelled worker for os.Expand; the fuel is the character count, which
bounds the iteration count, so the fuel-0 fallback is never reached from
osExpand. -/
def expandGo (mapping : String → String) : Nat → List Char → List Char
  | 0, l => l
  | _ + 1, [] => []
  | fuel + 1, c :: rest =>
    if c = '$' && !rest.isEmpty then
      let (name, w) := getShellName rest
      (mapping (String.mk name)).toList ++ expandGo mapping fuel (rest.drop w)
    else
      c :: expandGo mapping fuel rest

/-- Go os.Expand with the given mapping function. -/
def osExpand (mapping : String → String) (s : String) : String :=
  String.mk (expandGo mapping s.toList.length s.toList)

/-- Join with comma-space, as strings.Join(xs, comma-space) in the source. -/
def joinComma (l : List String) : String := String.intercalate (", ") l

/-- Drops the two final characters, modelling the query slicing that cuts a
trailing comma-space in InsertMulti. -/
def strDropRight2 (s : String) : String :=
  String.mk (s.toList.take (s.toList.length - 2))

end Reform

namespace Reform

/-- Metadata of a view or table (the generated ViewBase plus the Table
capability).  assoc models the ViewBase.m map built by NewViewBase (it maps
both exposed field names and column names to canonical column names);
viewId models the reference identity of the generated view object, which
InsertMulti compares with interface equality; pkIndex is PKColumnIndex and
is meaningful for tables (isTable).  newValues and the three t-hooks
describe the zero structs the NewStruct factory produces: newValues are the
zero field values and each t-hook is the optional hook implementation of
the generated struct type (none when the type does not implement the
corresponding interface; hooks act on the field values and may fail). -/
structure ViewInfo where
  schema : String
  name : String
  columns : List String
  assoc : List (String × String)
  viewId : Nat
  isTable : Bool
  pkIndex : Nat
  newValues : List Value
  tBI : Option (List Value → List Value × Option Err)
  tBU : Option (List Value → List Value × Option Err)
  tAF : Option (List Value → List Value × Option Err)

/-- ViewBase.ToCol: canonical column name for a field or column name,
returning the input unchanged when it is not in the map. -/
def ViewInfo.toCol (v : ViewInfo) (f : String) : String :=
  match v.assoc.lookup f with
  | some c => c
  | none => f

/-- One in-memory row (Struct, and Record when isRecord): the view it
belongs to, its field values aligned with the view's columns, its optional
hook implementations, and sid, a tag modelling the identity of the Go value
(used in traces and in the %s-formatted InsertMulti error). -/
structure RecStruct where
  view : ViewInfo
  values : List Value
  isRecord : Bool
  biHook : Option (List Value → List Value × Option Err)
  buHook : Option (List Value → List Value × Option Err)
  afHook : Option (List Value → List Value × Option Err)
  sid : Nat

/-- Modelled from the spec: the generated PKValue accessor ("the
primary-key value"); the generated accessors themselves are produced by the
out-of-scope generator and are not under src. -/
def RecStruct.pkValue (r : RecStruct) : Value :=
  r.values.getD r.view.pkIndex Value.vnull

/-- Modelled from the spec: the generated HasPK check ("has a non-zero
primary key"): true when the primary-key field differs from its zero
value. -/
def RecStruct.hasPK (r : RecStruct) : Bool :=
  !(r.pkValue.isZero)

/-- Modelled from the spec: the generated SetPK setter ("a primary-key
setter"); it stores the given value in the primary-key slot. -/
def RecStruct.setPK (r : RecStruct) (v : Value) : RecStruct :=
  { r with values := r.values.set r.view.pkIndex v }

/-- View.NewStruct factory: a zero struct of the view's type. -/
def ViewInfo.newStruct (v : ViewInfo) : RecStruct :=
  { view := v, values := v.newValues, isRecord := v.isTable,
    biHook := v.tBI, buHook := v.tBU, afHook := v.tAF, sid := v.viewId }

/-- Execution engine: the Dialect strategy (five fields mirroring the
Dialect interface) plus a stubbed Connection primitive (exec, query and
queryRow give the responses of Querier.Exec, Querier.Query and
Querier.QueryRow followed by Scan; a queryRow response is the row of values
deposited into the scan destinations, with Except.error Err.noRows
modelling an empty single-row result). -/
structure Querier where
  placeholder : Nat → String
  placeholders : Nat → Nat → List String
  quoteIdentifier : String → String
  lastInsertIdMethod : LastInsertIdMethod
  selectLimitMethod : SelectLimitMethod
  exec : String → List Value → Except Err ExecResult
  query : String → List Value → Except Err RowsStub
  queryRow : String → List Value → Except Err (List Value)

/-- Modelled from the spec: Querier.QualifiedView (its definition lives in
a source file not under src); per the spec the builder emits the
correctly-quoted view name, here with the schema prefix when present.  No
claim depends on its exact text. -/
def Querier.qualifiedView (q : Querier) (v : ViewInfo) : String :=
  if v.schema = "" then q.quoteIdentifier v.name
  else q.quoteIdentifier v.schema ++ "." ++ q.quoteIdentifier v.name

/-- Modelled from the spec: Querier.QualifiedColumns (not under src); the
SELECT projection of all table columns, qualified and quoted.  No claim
depends on its exact text. -/
def Querier.qualifiedColumns (q : Querier) (v : ViewInfo) : List String :=
  v.columns.map (fun c => q.qualifiedView v ++ "." ++ q.quoteIdentifier c)

/-! Concrete dialects from the source dialect packages. -/

/-- mssql Placeholder. -/
def mssqlPlaceholder (_ : Nat) : String := "?"

/-- mssql Placeholders: count question marks. -/
def mssqlPlaceholders (_start count : Nat) : List String :=
  List.replicate count ("?")

/-- mssql QuoteIdentifier: brackets around the identifier. -/
def mssqlQuoteIdentifier (identifier : String) : String :=
  String.singleton (Char.ofNat 91) ++ identifier ++ String.singleton (Char.ofNat 93)

/-- postgresql Placeholder: dollar-number. -/
def postgresqlPlaceholder (index : Nat) : String := "$" ++ toString index

/-- postgresql Placeholders: dollar-numbers from start. -/
def postgresqlPlaceholders (start count : Nat) : List String :=
  (List.range count).map (fun i => "$" ++ toString (start + i))

/-- postgresql QuoteIdentifier: double quotes around the identifier. -/
def postgresqlQuoteIdentifier (identifier : String) : String :=
  String.singleton (Char.ofNat 34) ++ identifier ++ String.singleton (Char.ofNat 34)

/-- Builds a Querier over the mssql dialect (OutputInserted, SelectTop)
with the given connection stubs. -/
def mssqlQuerier (exec : String → List Value → Except Err ExecResult)
    (query : String → List Value → Except Err RowsStub)
    (queryRow : String → List Value → Except Err (List Value)) : Querier :=
  { placeholder := mssqlPlaceholder, placeholders := mssqlPlaceholders,
    quoteIdentifier := mssqlQuoteIdentifier,
    lastInsertIdMethod := .outputInserted, selectLimitMethod := .selectTop,
    exec := exec, query := query, queryRow := queryRow }

/-- Builds a Querier over the postgresql dialect (Returning, Limit) with
the given connection stubs. -/
def postgresqlQuerier (exec : String → List Value → Except Err ExecResult)
    (query : String → List Value → Except Err RowsStub)
    (queryRow : String → List Value → Except Err (List Value)) : Querier :=
  { placeholder := postgresqlPlaceholder, placeholders := postgresqlPlaceholders,
    quoteIdentifier := postgresqlQuoteIdentifier,
    lastInsertIdMethod := .returning, selectLimitMethod := .limit,
    exec := exec, query := query, queryRow := queryRow }

end Reform

namespace Reform

/-! Column/Value filter (filteredColumnsAndValues) and the insert family
from the source commands file. -/

/-- strings.TrimLeft(c, dollar-cutset): strips every leading dollar sign. -/
def trimLeftDollar (c : String) : String :=
  String.mk (c.toList.dropWhile (fun ch => ch = '$'))

/-- Adds a key to the model of a Go string-set (map to empty struct):
duplicates collapse, first-insertion order is kept. -/
def insertSet (s : List String) (x : String) : List String :=
  if x ∈ s then s else s ++ [x]

/-- The requested-column set of filteredColumnsAndValues: every requested
name is dollar-trimmed and normalized through ToCol, then inserted. -/
def buildSet (toCol : String → String) (columnsIn : List String) : List String :=
  columnsIn.foldl (fun s c => insertSet s (toCol (trimLeftDollar c))) []

/-- Selection pass of filteredColumnsAndValues over the table columns
paired with the record values, carrying the running column index and the
remaining requested-set; on success it returns the selected columns, their
aligned values, and the set leftover. -/
def filterPass (pk : Nat) (isUpdate : Bool) :
    List (String × Value) → Nat → List String →
    Except Err (List String × List Value × List String)
  | [], _, set => .ok ([], [], set)
  | (c, v) :: rest, i, set =>
    if c ∈ set then
      if isUpdate && i == pk then .error (.willNotUpdatePK c)
      else
        match filterPass pk isUpdate rest (i + 1) (set.erase c) with
        | .error e => .error e
        | .ok (cs, vs, leftover) => .ok (c :: cs, v :: vs, leftover)
    else filterPass pk isUpdate rest (i + 1) set

/-- filteredColumnsAndValues from the source: builds the normalized
requested-set, walks the table columns in order collecting requested
columns with their aligned values (and for updates rejecting the
primary-key column), and fails naming all requested names that matched no
column.  The table columns are paired with the record values, reflecting
the aligned indexing allValues i of the source. -/
def filteredColumnsAndValues (record : RecStruct) (columnsIn : List String)
    (isUpdate : Bool) : Except Err (List String × List Value) :=
  let set0 := buildSet record.view.toCol columnsIn
  let table := record.view
  let pk := table.pkIndex
  let allColumns := table.columns
  let allValues := record.values
  match filterPass pk isUpdate (allColumns.zip allValues) 0 set0 with
  | .error e => .error e
  | .ok (cs, vs, leftover) =>
    if leftover.isEmpty then .ok (cs, vs)
    else .error (.unexpectedColumns leftover)

/-- Querier.beforeInsert: runs BeforeInsert when the struct implements it;
hook mutations of the field values apply in either case, and the hook's
failure is returned. -/
def beforeInsertStep (str : RecStruct) : RecStruct × Option Err × List Event :=
  match str.biHook with
  | none => (str, none, [])
  | some h =>
    let (vs, e) := h str.values
    ({ str with values := vs }, e, [Event.hookBI str.sid])

/-- Querier.insert (the lower-case helper): builds the INSERT statement,
branching on the dialect's LastInsertIdMethod exactly as the source does,
and executes it; for a Record under LastInsertId the driver-reported id is
stored through SetPK, and under Returning / OutputInserted the single
returned column is scanned into the primary-key pointer. -/
def Querier.insert (q : Querier) (str : RecStruct) (columns : List String)
    (values : List Value) : Res Unit × RecStruct × List Event :=
  let qcols := columns.map q.quoteIdentifier
  let placeholders := q.placeholders 1 qcols.length
  let view := str.view
  let isRec := str.isRecord
  let pk := view.pkIndex
  let query1 := "INSERT INTO " ++ q.qualifiedView view ++ " (" ++ joinComma qcols ++ ")"
  let query2 :=
    if isRec && (q.lastInsertIdMethod == .outputInserted) then
      query1 ++ " OUTPUT INSERTED." ++ q.quoteIdentifier (view.columns.getD pk "")
    else query1
  let query3 := query2 ++ " VALUES (" ++ joinComma placeholders ++ ")"
  let query4 :=
    if isRec && (q.lastInsertIdMethod == .returning) then
      query3 ++ " RETURNING " ++ q.quoteIdentifier (view.columns.getD pk "")
    else query3
  match q.lastInsertIdMethod with
  | .lastInsertId =>
    let expanded := osExpand view.toCol query4
    (match q.exec expanded values with
     | .error e => (.err e, str, [Event.exec expanded values])
     | .ok res =>
       if isRec then
         match res.lastInsertId with
         | .error e => (.err e, str, [Event.exec expanded values])
         | .ok id => (.ok (), str.setPK (Value.vint id), [Event.exec expanded values])
       else (.ok (), str, [Event.exec expanded values]))
  | _ =>
    if isRec then
      match q.queryRow query4 values with
      | .error e => (.err e, str, [Event.queryRow query4 values])
      | .ok row =>
        if row.length == 1 then
          (.ok (), str.setPK (row.headD Value.vnull), [Event.queryRow query4 values])
        else (.err (.scanMismatch row.length 1), str, [Event.queryRow query4 values])
    else
      let expanded := osExpand view.toCol query4
      match q.exec expanded values with
      | .error e => (.err e, str, [Event.exec expanded values])
      | .ok _ => (.ok (), str, [Event.exec expanded values])

/-- Querier.Insert: runs the pre-insert hook, then cuts the primary-key
column and value when the record's key is unset, and delegates to the
insert helper. -/
def Querier.Insert (q : Querier) (str : RecStruct) : Res Unit × RecStruct × List Event :=
  match beforeInsertStep str with
  | (str1, some e, evs) => (.err e, str1, evs)
  | (str1, none, evs) =>
    let view := str1.view
    let values := str1.values
    let columns := view.columns
    if str1.isRecord && !str1.hasPK then
      let pk := view.pkIndex
      let values1 := values.take pk ++ values.drop (pk + 1)
      let columns1 := columns.take pk ++ columns.drop (pk + 1)
      let (res, str2, evs2) := q.insert str1 columns1 values1
      (res, str2, evs ++ evs2)
    else
      let (res, str2, evs2) := q.insert str1 columns values
      (res, str2, evs ++ evs2)

/-- Querier.InsertColumns: pre-insert hook, then the Column/Value filter in
insert mode, then the insert helper. -/
def Querier.InsertColumns (q : Querier) (record : RecStruct) (columns : List String) :
    Res Unit × RecStruct × List Event :=
  match beforeInsertStep record with
  | (r1, some e, evs) => (.err e, r1, evs)
  | (r1, none, evs) =>
    match filteredColumnsAndValues r1 columns false with
    | .error e => (.err e, r1, evs)
    | .ok (cs, vs) =>
      let (res, r2, evs2) := q.insert r1 cs vs
      (res, r2, evs ++ evs2)

end Reform

namespace Reform

/-- View-identity check of InsertMulti: the first struct whose view is not
the reference-identical view of the first struct, if any (the source
returns on the first mismatch, before any hook runs). -/
def findViewMismatch (view : ViewInfo) : List RecStruct → Option ViewInfo
  | [] => none
  | s :: rest =>
    if s.view.viewId != view.viewId then some s.view
    else findViewMismatch view rest

/-- Hook phase of InsertMulti: every struct's BeforeInsert runs (later
hooks run even after an earlier failure), and the first non-nil hook error
is kept. -/
def runBeforeInsertHooks : List RecStruct → List RecStruct × Option Err × List Event
  | [] => ([], none, [])
  | s :: rest =>
    let (s1, e, evs) := beforeInsertStep s
    let (rest1, e2, evs2) := runBeforeInsertHooks rest
    (s1 :: rest1, (if e.isSome then e else e2), evs ++ evs2)

/-- Primary-key uniformity check of InsertMulti: the first struct whose
HasPK differs from the first record's, if any. -/
def findPKMismatch (record : RecStruct) : List RecStruct → Option RecStruct
  | [] => none
  | s :: rest =>
    if record.hasPK != s.hasPK then some s
    else findPKMismatch record rest

/-- SQL phase of InsertMulti: quotes the view columns, cuts the primary-key
column when the first record's key is unset, builds the single multi-group
INSERT with one placeholder group per struct in input order, concatenates
the per-struct value lists (each cut the same way), and executes it.  No
primary key is filled back. -/
def Querier.insertMultiExec (q : Querier) (view : ViewInfo) (record : RecStruct)
    (structs : List RecStruct) : Res Unit × List Event :=
  let columns0 := view.columns.map q.quoteIdentifier
  let pk := view.pkIndex
  let cut := record.isRecord && !record.hasPK
  let columns := if cut then columns0.take pk ++ columns0.drop (pk + 1) else columns0
  let n := columns.length
  let placeholders := q.placeholders 1 (n * structs.length)
  let base := "INSERT INTO " ++ q.qualifiedView view ++ " (" ++ joinComma columns ++ ") VALUES "
  let groups := (List.range structs.length).map
    (fun i => "(" ++ joinComma ((placeholders.drop (n * i)).take n) ++ "), ")
  let query := strDropRight2 (base ++ String.join groups)
  let values := structs.foldr
    (fun s acc =>
      (if cut then s.values.take pk ++ s.values.drop (pk + 1) else s.values) ++ acc) []
  let expanded := osExpand view.toCol query
  match q.exec expanded values with
  | .error e => (.err e, [Event.exec expanded values])
  | .ok _ => (.ok (), [Event.exec expanded values])

/-- Querier.InsertMulti: empty input is a nil no-op; then the view-identity
check (before hooks), then the hook phase over the whole batch, then the
primary-key uniformity check (after hooks, when the first struct is a
Record), then the single INSERT. -/
def Querier.InsertMulti (q : Querier) (structs : List RecStruct) :
    Res Unit × List RecStruct × List Event :=
  match structs with
  | [] => (.ok (), [], [])
  | s0 :: _ =>
    let view := s0.view
    match findViewMismatch view structs with
    | some v2 => (.err (.differentTables view.name v2.name), structs, [])
    | none =>
      let (structs1, herr, hevs) := runBeforeInsertHooks structs
      match herr with
      | some e => (.err e, structs1, hevs)
      | none =>
        let record := structs1.headD s0
        if record.isRecord then
          match findPKMismatch record structs1 with
          | some s2 => (.err (.pkMismatch record.sid s2.sid), structs1, hevs)
          | none =>
            let (res, evs2) := q.insertMultiExec view record structs1
            (res, structs1, hevs ++ evs2)
        else
          let (res, evs2) := q.insertMultiExec view record structs1
          (res, structs1, hevs ++ evs2)

/-- Querier.update (the lower-case helper): builds UPDATE with the quoted
SET pairs, the primary-key WHERE predicate at placeholder index one past
the SET columns, appends the record's current primary-key value to the
arguments, executes, and applies the row-count postconditions: zero
affected rows is ErrNoRows, more than one is a panic, one is success. -/
def Querier.update (q : Querier) (record : RecStruct) (columns : List String)
    (values : List Value) : Res Unit × List Event :=
  let qcols := columns.map q.quoteIdentifier
  let placeholders := q.placeholders 1 qcols.length
  let p := List.zipWith (fun c ph => c ++ " = " ++ ph) qcols placeholders
  let table := record.view
  let query := "UPDATE " ++ q.qualifiedView table ++ " SET " ++ joinComma p ++
    " WHERE " ++ q.quoteIdentifier (table.columns.getD table.pkIndex "") ++
    " = " ++ q.placeholder (qcols.length + 1)
  let args := values ++ [record.pkValue]
  let expanded := osExpand table.toCol query
  match q.exec expanded args with
  | .error e => (.err e, [Event.exec expanded args])
  | .ok res =>
    match res.rowsAffected with
    | .error e => (.err e, [Event.exec expanded args])
    | .ok ra =>
      if ra = 0 then (.err .noRows, [Event.exec expanded args])
      else if ra > 1 then
        (.fatal ("reform: " ++ toString ra ++ " rows by UPDATE by primary key. Please report this bug."),
         [Event.exec expanded args])
      else (.ok (), [Event.exec expanded args])

/-- Querier.beforeUpdate: ErrNoPK when the primary key is unset, otherwise
the pre-update hook when the record implements it. -/
def Querier.beforeUpdate (q : Querier) (record : RecStruct) :
    Option Err × RecStruct × List Event :=
  if !record.hasPK then (some .noPK, record, [])
  else
    match record.buHook with
    | none => (none, record, [])
    | some h =>
      let (vs, e) := h record.values
      (e, { record with values := vs }, [Event.hookBU record.sid])

/-- Querier.Update: beforeUpdate, then the full column list with the
primary-key column cut, then the update helper. -/
def Querier.Update (q : Querier) (record : RecStruct) :
    Res Unit × RecStruct × List Event :=
  match q.beforeUpdate record with
  | (some e, r1, evs) => (.err e, r1, evs)
  | (none, r1, evs) =>
    let table := r1.view
    let pk := table.pkIndex
    let values := r1.values.take pk ++ r1.values.drop (pk + 1)
    let columns := table.columns.take pk ++ table.columns.drop (pk + 1)
    let (res, evs2) := q.update r1 columns values
    (res, r1, evs ++ evs2)

/-- Querier.UpdateColumns: beforeUpdate, then the Column/Value filter in
update mode, then the nothing-to-update check, then the update helper. -/
def Querier.UpdateColumns (q : Querier) (record : RecStruct) (columns : List String) :
    Res Unit × RecStruct × List Event :=
  match q.beforeUpdate record with
  | (some e, r1, evs) => (.err e, r1, evs)
  | (none, r1, evs) =>
    match filteredColumnsAndValues r1 columns true with
    | .error e => (.err e, r1, evs)
    | .ok (cs, vs) =>
      if vs.length == 0 then (.err .nothingToUpdate, r1, evs)
      else
        let (res, evs2) := q.update r1 cs vs
        (res, r1, evs ++ evs2)

/-- Querier.Save: with a set primary key attempt Update and return its
outcome unless it is ErrNoRows; otherwise (unset key, or Update reported
ErrNoRows) Insert. -/
def Querier.Save (q : Querier) (record : RecStruct) :
    Res Unit × RecStruct × List Event :=
  if record.hasPK then
    match q.Update record with
    | (.err .noRows, r1, evs) =>
      let (res, r2, evs2) := q.Insert r1
      (res, r2, evs ++ evs2)
    | other => other
  else q.Insert record

/-- Querier.Delete: ErrNoPK when the key is unset; otherwise DELETE by the
primary-key predicate with the same row-count postconditions as update. -/
def Querier.Delete (q : Querier) (record : RecStruct) : Res Unit × List Event :=
  if !record.hasPK then (.err .noPK, [])
  else
    let table := record.view
    let pk := table.pkIndex
    let query := "DELETE FROM " ++ q.qualifiedView table ++ " WHERE " ++
      q.quoteIdentifier (table.columns.getD pk "") ++ " = " ++ q.placeholder 1
    let expanded := osExpand table.toCol query
    let args := [record.pkValue]
    match q.exec expanded args with
    | .error e => (.err e, [Event.exec expanded args])
    | .ok res =>
      match res.rowsAffected with
      | .error e => (.err e, [Event.exec expanded args])
      | .ok ra =>
        if ra = 0 then (.err .noRows, [Event.exec expanded args])
        else if ra > 1 then
          (.fatal ("reform: " ++ toString ra ++ " rows by DELETE by primary key. Please report this bug."),
           [Event.exec expanded args])
        else (.ok (), [Event.exec expanded args])

end Reform

namespace Reform

/-! Select operations from querier_selects.go. -/

/-- Querier.NextRow: advance the cursor; with no next row return the
cursor's own error when present and ErrNoRows otherwise; with a row, scan
it into the struct's per-column pointers (replacing the field values
wholesale, which models the aligned pointer list) and then run AfterFind
when the struct implements it, returning its failure while keeping the
scanned (and hook-adjusted) fields.  The updated struct, the consumed
cursor and the trace are returned alongside the error. -/
def Querier.NextRow (q : Querier) (str : RecStruct) (rows : RowsStub) :
    Option Err × RecStruct × RowsStub × List Event :=
  match rows.steps with
  | [] =>
    (match rows.termErr with
     | some e => (some e, str, rows, [])
     | none => (some Err.noRows, str, rows, []))
  | step :: rest =>
    let rows1 : RowsStub := { rows with steps := rest }
    match step with
    | .error e => (some e, str, rows1, [])
    | .ok row =>
      if row.length == str.values.length then
        let str1 := { str with values := row }
        match str1.afHook with
        | none => (none, str1, rows1, [])
        | some h =>
          let (vs, e) := h str1.values
          (e, { str1 with values := vs }, rows1, [Event.hookAF str.sid])
      else (some (.scanMismatch row.length str.values.length), str, rows1, [])

/-- Querier.selectQuery: full SELECT text for a view and tail, with the TOP
1 marker for single-row requests on SelectTop dialects. -/
def Querier.selectQuery (q : Querier) (view : ViewInfo) (tail : String)
    (limit1 : Bool) : String :=
  let command :=
    if limit1 && (q.selectLimitMethod == .selectTop) then "SELECT TOP 1" else "SELECT"
  command ++ " " ++ joinComma (q.qualifiedColumns view) ++ " FROM " ++
    q.qualifiedView view ++ " " ++ tail

/-- Querier.SelectOneTo: single-row SELECT scanned into the struct, then
AfterFind when implemented (the scanned fields are kept even when the hook
fails). -/
def Querier.SelectOneTo (q : Querier) (str : RecStruct) (tail : String)
    (args : List Value) : Option Err × RecStruct × List Event :=
  let query := osExpand str.view.toCol (q.selectQuery str.view tail true)
  match q.queryRow query args with
  | .error e => (some e, str, [Event.queryRow query args])
  | .ok row =>
    if row.length == str.values.length then
      let str1 := { str with values := row }
      match str1.afHook with
      | none => (none, str1, [Event.queryRow query args])
      | some h =>
        let (vs, e) := h str1.values
        (e, { str1 with values := vs }, [Event.queryRow query args, Event.hookAF str.sid])
    else
      (some (.scanMismatch row.length str.values.length), str, [Event.queryRow query args])

/-- Querier.SelectOneFrom: SelectOneTo into a freshly made struct of the
view, returning nil on failure. -/
def Querier.SelectOneFrom (q : Querier) (view : ViewInfo) (tail : String)
    (args : List Value) : Except Err RecStruct × List Event :=
  let str := view.newStruct
  match q.SelectOneTo str tail args with
  | (some e, _, evs) => (.error e, evs)
  | (none, str1, evs) => (.ok str1, evs)

/-- Querier.SelectRows: executes the multi-row SELECT and hands the cursor
to the caller. -/
def Querier.SelectRows (q : Querier) (view : ViewInfo) (tail : String)
    (args : List Value) : Except Err RowsStub × List Event :=
  let query := osExpand view.toCol (q.selectQuery view tail false)
  (q.query query args, [Event.query query args])

/-- Iteration of Querier.SelectAllFrom: makes a fresh struct per round,
materializes it through NextRow, and stops on the first NextRow error,
mapping ErrNoRows to a clean end.  The fuel argument bounds the rounds; the
callers pass one more than the number of cursor steps, which NextRow
consumes one per successful round, so the fuel-0 fallback is never
reached. -/
def selectAllLoop (q : Querier) (view : ViewInfo) :
    Nat → RowsStub → List RecStruct × Option Err × List Event
  | 0, _ => ([], none, [])
  | fuel + 1, rows =>
    match q.NextRow view.newStruct rows with
    | (some e, _, _, evs) => ([], (if e = Err.noRows then none else some e), evs)
    | (none, str1, rows1, evs) =>
      let (strs, err, evs2) := selectAllLoop q view fuel rows1
      (str1 :: strs, err, evs ++ evs2)

/-- Querier.SelectAllFrom: executes the SELECT, accumulates every
materialized struct, and on a mid-iteration failure returns the partial
slice together with the error; the deferred rows.Close error replaces a nil
iteration error. -/
def Querier.SelectAllFrom (q : Querier) (view : ViewInfo) (tail : String)
    (args : List Value) : List RecStruct × Option Err × List Event :=
  let query := osExpand view.toCol (q.selectQuery view tail false)
  match q.query query args with
  | .error e => ([], some e, [Event.query query args])
  | .ok rows =>
    let (strs, err, evs) := selectAllLoop q view (rows.steps.length + 1) rows
    let err1 :=
      match err with
      | none => rows.closeErr
      | some e => some e
    (strs, err1, Event.query query args :: evs)

/-- Querier.findTail: the synthesized WHERE tail for a find operation; a
nil argument produces an IS NULL predicate binding nothing, a non-nil
argument produces an equality against placeholder one and requests the
argument to be bound; single-row requests on Limit dialects append LIMIT
1. -/
def Querier.findTail (q : Querier) (view : String) (column : String)
    (arg : Option Value) (limit1 : Bool) : String × Bool :=
  let qi := q.quoteIdentifier view ++ "." ++ q.quoteIdentifier column
  let (tail, needArg) :=
    match arg with
    | none => ("WHERE " ++ qi ++ " IS NULL", false)
    | some _ => ("WHERE " ++ qi ++ " = " ++ q.placeholder 1, true)
  if limit1 && (q.selectLimitMethod == .limit) then (tail ++ " LIMIT 1", needArg)
  else (tail, needArg)

/-- Querier.FindOneTo: findTail for the struct's view, then SelectOneTo
with the argument bound only when the tail requested it.  A nil Go
interface argument is Option.none; when needArg holds the argument is
necessarily some value, extracted with getD. -/
def Querier.FindOneTo (q : Querier) (str : RecStruct) (column : String)
    (arg : Option Value) : Option Err × RecStruct × List Event :=
  let (tail, needArg) := q.findTail str.view.name column arg true
  if needArg then q.SelectOneTo str tail [arg.getD Value.vnull]
  else q.SelectOneTo str tail []

/-- Querier.FindOneFrom: findTail, then SelectOneFrom with the argument
bound only when requested. -/
def Querier.FindOneFrom (q : Querier) (view : ViewInfo) (column : String)
    (arg : Option Value) : Except Err RecStruct × List Event :=
  let (tail, needArg) := q.findTail view.name column arg true
  if needArg then q.SelectOneFrom view tail [arg.getD Value.vnull]
  else q.SelectOneFrom view tail []

/-- Querier.FindRows: findTail without the single-row limit, then
SelectRows with the argument bound only when requested. -/
def Querier.FindRows (q : Querier) (view : ViewInfo) (column : String)
    (arg : Option Value) : Except Err RowsStub × List Event :=
  let (tail, needArg) := q.findTail view.name column arg false
  if needArg then q.SelectRows view tail [arg.getD Value.vnull]
  else q.SelectRows view tail []

/-- Querier.FindByPrimaryKeyTo: FindOneTo on the table's primary-key
column. -/
def Querier.FindByPrimaryKeyTo (q : Querier) (record : RecStruct)
    (pk : Option Value) : Option Err × RecStruct × List Event :=
  let table := record.view
  q.FindOneTo record (table.columns.getD table.pkIndex "") pk

/-- Querier.Reload: FindByPrimaryKeyTo with the record's own current
primary-key value (PKValue is never a nil interface). -/
def Querier.Reload (q : Querier) (record : RecStruct) :
    Option Err × RecStruct × List Event :=
  q.FindByPrimaryKeyTo record (some record.pkValue)

end Reform

namespace Reform

/-! Concrete fixtures used by witnesses and counterexamples: a three-column
people table with the primary key in column zero, records with set and
unset keys, and stub connections. -/

/-- Example table metadata: columns id, name, age with the primary key at
index zero. -/
def vPeople : ViewInfo :=
  { schema := "", name := "people",
    columns := ["id", "name", "age"],
    assoc := [("ID", "id"), ("id", "id"), ("Name", "name"), ("name", "name"),
              ("Age", "age"), ("age", "age")],
    viewId := 1, isTable := true, pkIndex := 0,
    newValues := [.vint 0, .vstr "", .vint 0],
    tBI := none, tBU := none, tAF := none }

/-- Record on vPeople with the primary key set to five and no hooks. -/
def rSet : RecStruct :=
  { view := vPeople, values := [.vint 5, .vstr "a", .vint 30],
    isRecord := true, biHook := none, buHook := none, afHook := none, sid := 10 }

/-- Record on vPeople with the primary key unset (zero) and no hooks. -/
def rUnset : RecStruct :=
  { view := vPeople, values := [.vint 0, .vstr "b", .vint 7],
    isRecord := true, biHook := none, buHook := none, afHook := none, sid := 11 }

/-- Exec stub reporting fixed last-insert id and affected-row count. -/
def execStub (li ra : Int) : String → List Value → Except Err ExecResult :=
  fun _ _ => .ok { lastInsertId := .ok li, rowsAffected := .ok ra }

/-- Query stub failing with a driver error. -/
def queryStubErr : String → List Value → Except Err RowsStub :=
  fun _ _ => .error (.other 99)

/-- QueryRow stub failing with a driver error. -/
def queryRowStubErr : String → List Value → Except Err (List Value) :=
  fun _ _ => .error (.other 9)

/-- Querier over a driver-reported-last-insert-id dialect (the LastInsertId
enum variant handled by the source insert helper) with the given exec
stub responses. -/
def qLastInsertId (li ra : Int) : Querier :=
  { placeholder := mssqlPlaceholder, placeholders := mssqlPlaceholders,
    quoteIdentifier := mssqlQuoteIdentifier,
    lastInsertIdMethod := .lastInsertId, selectLimitMethod := .limit,
    exec := execStub li ra, query := queryStubErr, queryRow := queryRowStubErr }

/-- Record with a set primary key and a succeeding BeforeInsert hook. -/
def rHookA : RecStruct := { rSet with biHook := some (fun vs => (vs, none)), sid := 20 }

/-- Record with an unset primary key and a succeeding BeforeInsert hook. -/
def rHookB : RecStruct := { rUnset with biHook := some (fun vs => (vs, none)), sid := 21 }

/-- Querier over the postgresql dialect whose single-row queries echo the
primary-key value five of rSet. -/
def qReturningEcho : Querier :=
  postgresqlQuerier (execStub 7 1) queryStubErr (fun _ _ => .ok [Value.vint 5])

/-- Querier over the postgresql dialect whose multi-row queries yield the
given cursor stub. -/
def qRows (rs : RowsStub) : Querier :=
  postgresqlQuerier (execStub 7 1) (fun _ _ => .ok rs) queryRowStubErr

/-- Zero struct of vPeople with a failing AfterFind hook. -/
def rAF : RecStruct :=
  { vPeople.newStruct with afHook := some (fun vs => (vs, some (.other 5))), sid := 30 }

end Reform

namespace Reform

/-! Helper lemmas shared by the claim theorems. -/

/-- Setting the primary-key slot of a record makes that value the record's
primary-key value, provided the slot index is in range (the record
invariant). -/
theorem pkValue_setPK (r : RecStruct) (v : Value) (h : r.view.pkIndex < r.values.length) :
    (r.setPK v).pkValue = v := by
  simp [RecStruct.setPK, RecStruct.pkValue, List.getD, List.getElem?_set_self, h]

end Reform

namespace Reform

/-- Claim C4: for every update-by-primary-key and delete-by-primary-key
execution, an affected-row count of zero is reported as ErrNoRows, a count
greater than one is a fatal invariant violation (a panic), and exactly one
affected row is success. -/
theorem C4_rowcount_postconditions (q : Querier) (r : RecStruct) (cols : List String)
    (vals : List Value) (li ra : Int)
    (hexec : ∀ s a, q.exec s a = .ok { lastInsertId := .ok li, rowsAffected := .ok ra })
    (hpk : r.hasPK = true) :
    (ra = 0 → (q.update r cols vals).1 = .err .noRows ∧ (q.Delete r).1 = .err .noRows) ∧
    (ra = 1 → (q.update r cols vals).1 = .ok () ∧ (q.Delete r).1 = .ok ()) ∧
    (ra > 1 → (∃ m, (q.update r cols vals).1 = .fatal m) ∧ ∃ m, (q.Delete r).1 = .fatal m) := by
  refine ⟨?_, ?_, ?_⟩
  · intro h0
    subst h0
    constructor
    · simp [Querier.update, hexec]
    · simp [Querier.Delete, hpk, hexec]
  · intro h1
    subst h1
    constructor
    · simp [Querier.update, hexec]
    · simp [Querier.Delete, hpk, hexec]
  · intro hgt
    have h0 : ¬ (ra = 0) := by omega
    have h1 : ra > 1 := hgt
    constructor
    · exact ⟨"reform: " ++ toString ra ++ " rows by UPDATE by primary key. Please report this bug.",
        by simp [Querier.update, hexec, h0, h1]⟩
    · exact ⟨"reform: " ++ toString ra ++ " rows by DELETE by primary key. Please report this bug.",
        by simp [Querier.Delete, hpk, hexec, h0, h1]⟩

/-- Witness for C4 at a concrete record and stub: two affected rows are
fatal for both UPDATE and DELETE by primary key. -/
theorem C4_rowcount_postconditions_witness :
    (∃ m, ((qLastInsertId 7 2).update rSet ["name"] [Value.vstr "x"]).1 = Res.fatal m) ∧
    (∃ m, ((qLastInsertId 7 2).Delete rSet).1 = Res.fatal m) :=
  (C4_rowcount_postconditions (qLastInsertId 7 2) rSet ["name"] [Value.vstr "x"] 7 2
    (fun _ _ => rfl) (by decide)).2.2 (by norm_num)

end Reform

namespace Reform

/-- Claim C5: Save is the composition the spec describes: with a set
primary key it attempts Update and returns Update's outcome unless that
outcome is the not-found sentinel ErrNoRows, in which case it falls through
to Insert on the post-Update record; with an unset key it goes straight to
Insert. -/
theorem C5_save_composition (q : Querier) (r : RecStruct) :
    (r.hasPK = false → q.Save r = q.Insert r) ∧
    (r.hasPK = true →
      ∀ res r1 evs, q.Update r = (res, r1, evs) →
        ((res = Res.err Err.noRows →
           q.Save r = ((q.Insert r1).1, (q.Insert r1).2.1, evs ++ (q.Insert r1).2.2)) ∧
         (res ≠ Res.err Err.noRows → q.Save r = (res, r1, evs)))) := by
  constructor
  · intro h
    simp [Querier.Save, h]
  · intro h res r1 evs hU
    constructor
    · intro hres
      subst hres
      simp only [Querier.Save, h, if_true]
      rw [hU]
    · intro hres
      simp only [Querier.Save, h, if_true]
      rw [hU]
      split
      · next heq =>
        exfalso
        apply hres
        have := congrArg Prod.fst heq
        simpa using this
      · rfl

/-- Witness for C5 at a concrete record and stub: the stub reports zero
affected rows, Update reports ErrNoRows, and Save falls through to
Insert on the post-Update record with the traces concatenated. -/
theorem C5_save_composition_witness :
    (qLastInsertId 7 0).Save rSet =
      (((qLastInsertId 7 0).Insert ((qLastInsertId 7 0).Update rSet).2.1).1,
       ((qLastInsertId 7 0).Insert ((qLastInsertId 7 0).Update rSet).2.1).2.1,
       ((qLastInsertId 7 0).Update rSet).2.2 ++
         ((qLastInsertId 7 0).Insert ((qLastInsertId 7 0).Update rSet).2.1).2.2) :=
  ((C5_save_composition (qLastInsertId 7 0) rSet).2 (by decide)
    ((qLastInsertId 7 0).Update rSet).1
    ((qLastInsertId 7 0).Update rSet).2.1
    ((qLastInsertId 7 0).Update rSet).2.2 rfl).1 (by decide)

end Reform

namespace Reform

/-- Counterexample to claim C1: under the driver-reported last-inserted-id
dialect variant, Insert on a record whose primary key is already set
succeeds and overwrites the preset key (five) with the driver-reported id
(seven); the source insert helper calls SetPK for every Record regardless
of HasPK. -/
theorem C1_counterexample :
    rSet.hasPK = true ∧
    rSet.pkValue = Value.vint 5 ∧
    ((qLastInsertId 7 1).Insert rSet).1 = Res.ok () ∧
    ((qLastInsertId 7 1).Insert rSet).2.1.pkValue = Value.vint 7 := by
  refine ⟨by decide, by decide, by decide, by decide⟩

end Reform

namespace Reform

/-- Claim C1 (amended): for a record with a pre-set primary key (no
pre-insert hook in play), Insert under the RETURNING and OUTPUT INSERTED
variants writes the single database-returned primary-key column into the
key slot, so the slot is unchanged exactly when the database echoes the
inserted key (which SQL semantics guarantee, as the key column is included
in the INSERT); under the driver-reported last-inserted-id variant the slot
is overwritten with the driver-reported id. -/
theorem C1_insert_preset_pk_amended (q : Querier) (r : RecStruct)
    (hrec : r.isRecord = true) (hpk : r.hasPK = true) (hhook : r.biHook = none)
    (hlen : r.view.pkIndex < r.values.length) :
    ((q.lastInsertIdMethod = .returning ∨ q.lastInsertIdMethod = .outputInserted) →
      ∀ v, (∀ s a, q.queryRow s a = .ok [v]) →
        (q.Insert r).2.1.pkValue = v ∧
        (v = r.pkValue → (q.Insert r).2.1.pkValue = r.pkValue)) ∧
    (q.lastInsertIdMethod = .lastInsertId →
      ∀ li ra, (∀ s a, q.exec s a = .ok { lastInsertId := .ok li, rowsAffected := .ok ra }) →
        (q.Insert r).2.1.pkValue = Value.vint li) := by
  constructor
  · intro hm v hq
    have hmain : (q.Insert r).2.1.pkValue = v := by
      rcases hm with hm | hm <;>
        simp [Querier.Insert, beforeInsertStep, hhook, hpk, Querier.insert, hm, hrec, hq,
          pkValue_setPK r v hlen]
    exact ⟨hmain, fun hv => by rw [hmain, hv]⟩
  · intro hm li ra hexec
    simp [Querier.Insert, beforeInsertStep, hhook, hpk, Querier.insert, hm, hrec, hexec,
      pkValue_setPK r (Value.vint li) hlen]

end Reform

namespace Reform

/-- Witness for the amended C1 at a concrete record and stubs: under the
RETURNING dialect with the database echoing the preset key five, the key is
unchanged. -/
theorem C1_insert_preset_pk_amended_witness :
    (qReturningEcho.Insert rSet).2.1.pkValue = rSet.pkValue :=
  ((C1_insert_preset_pk_amended qReturningEcho rSet (by decide) (by decide) rfl
      (by decide)).1 (Or.inl rfl) (Value.vint 5) (fun _ _ => rfl)).2 (by decide)

end Reform

namespace Reform

/-- The hook phase of InsertMulti performs no SQL: its trace consists of
hook events only. -/
theorem sqlEvents_runBeforeInsertHooks (structs : List RecStruct) :
    sqlEvents (runBeforeInsertHooks structs).2.2 = [] := by
  induction structs with
  | nil => rfl
  | cons s rest ih =>
    simp only [runBeforeInsertHooks]
    cases hb : s.biHook with
    | none =>
      simpa [beforeInsertStep, hb, sqlEvents] using ih
    | some h =>
      simp only [beforeInsertStep, hb]
      simp only [sqlEvents, List.filter_append] at ih ⊢
      simpa [Event.isSQL] using ih

/-- Every struct that implements BeforeInsert contributes its hook event to
the hook phase of InsertMulti. -/
theorem hook_ran_runBeforeInsertHooks (structs : List RecStruct) :
    ∀ s ∈ structs, s.biHook.isSome → Event.hookBI s.sid ∈ (runBeforeInsertHooks structs).2.2 := by
  induction structs with
  | nil => intro s hs; cases hs
  | cons s0 rest ih =>
    intro s hs hsome
    simp only [runBeforeInsertHooks]
    rcases List.mem_cons.mp hs with h | h
    · subst h
      cases hb : s.biHook with
      | none => rw [hb] at hsome; cases hsome
      | some f => simp [beforeInsertStep, hb]
    · have := ih s h hsome
      cases hb : s0.biHook with
      | none => simpa [beforeInsertStep, hb] using this
      | some f => simp [beforeInsertStep, hb, this]

end Reform

namespace Reform

/-- Counterexample to claim C2: a two-record batch with mixed primary-key
presence fails with the mismatch validation error, yet the trace already
contains both records' pre-insert hook invocations, so the failure is not
detected before the hooks run. -/
theorem C2_counterexample :
    ((qLastInsertId 7 1).InsertMulti [rHookA, rHookB]).1 = Res.err (Err.pkMismatch 20 21) ∧
    ((qLastInsertId 7 1).InsertMulti [rHookA, rHookB]).2.2 =
      [Event.hookBI 20, Event.hookBI 21] ∧
    sqlEvents ((qLastInsertId 7 1).InsertMulti [rHookA, rHookB]).2.2 = [] := by
  refine ⟨rfl, rfl, rfl⟩

/-- Claim C2 (amended): a batch over one view whose pre-insert hooks all
succeed but whose records disagree on primary-key presence fails with the
mismatch validation error before any SQL is executed, but only after the
hook phase: the whole trace is the hook phase's trace, it contains no SQL,
and it contains the hook event of every record implementing the hook (a
failing hook would instead abort with the first hook error, likewise after
all hooks ran and before any SQL). -/
theorem C2_insertmulti_mixed_pk_amended (q : Querier) (s0 : RecStruct) (rest : List RecStruct)
    (hview : findViewMismatch s0.view (s0 :: rest) = none)
    (hh : (runBeforeInsertHooks (s0 :: rest)).2.1 = none)
    (hrec : ((runBeforeInsertHooks (s0 :: rest)).1.headD s0).isRecord = true)
    (s2 : RecStruct)
    (hmix : findPKMismatch ((runBeforeInsertHooks (s0 :: rest)).1.headD s0)
        (runBeforeInsertHooks (s0 :: rest)).1 = some s2) :
    (q.InsertMulti (s0 :: rest)).1 =
      Res.err (.pkMismatch ((runBeforeInsertHooks (s0 :: rest)).1.headD s0).sid s2.sid) ∧
    (q.InsertMulti (s0 :: rest)).2.2 = (runBeforeInsertHooks (s0 :: rest)).2.2 ∧
    sqlEvents ((q.InsertMulti (s0 :: rest)).2.2) = [] ∧
    (∀ s ∈ s0 :: rest, s.biHook.isSome →
      Event.hookBI s.sid ∈ (q.InsertMulti (s0 :: rest)).2.2) := by
  have hsplit : runBeforeInsertHooks (s0 :: rest) =
      ((runBeforeInsertHooks (s0 :: rest)).1, none,
        (runBeforeInsertHooks (s0 :: rest)).2.2) := by
    rw [← hh]
  have hIM : q.InsertMulti (s0 :: rest) =
      (Res.err (.pkMismatch ((runBeforeInsertHooks (s0 :: rest)).1.headD s0).sid s2.sid),
        (runBeforeInsertHooks (s0 :: rest)).1,
        (runBeforeInsertHooks (s0 :: rest)).2.2) := by
    conv_lhs => rw [Querier.InsertMulti]
    rw [hview, hsplit]
    simp only [hrec, if_true, hmix]
  refine ⟨by rw [hIM], by rw [hIM], ?_, ?_⟩
  · rw [hIM]
    exact sqlEvents_runBeforeInsertHooks (s0 :: rest)
  · intro s hs hsome
    rw [hIM]
    exact hook_ran_runBeforeInsertHooks (s0 :: rest) s hs hsome

/-- Witness for the amended C2 at the concrete mixed batch: the mismatch
error of the two records' identities is produced with an SQL-free trace. -/
theorem C2_insertmulti_mixed_pk_amended_witness :
    ((qLastInsertId 7 1).InsertMulti [rHookA, rHookB]).2.2 =
      (runBeforeInsertHooks [rHookA, rHookB]).2.2 ∧
    sqlEvents ((qLastInsertId 7 1).InsertMulti [rHookA, rHookB]).2.2 = [] :=
  ⟨(C2_insertmulti_mixed_pk_amended (qLastInsertId 7 1) rHookA [rHookB]
      rfl rfl rfl rHookB rfl).2.1,
   (C2_insertmulti_mixed_pk_amended (qLastInsertId 7 1) rHookA [rHookB]
      rfl rfl rfl rHookB rfl).2.2.1⟩

end Reform

namespace Reform

/-- SelectOneTo always performs exactly one single-row query binding
exactly the given arguments. -/
theorem sqlArgLists_SelectOneTo (q : Querier) (str : RecStruct) (tail : String)
    (args : List Value) :
    sqlArgLists (q.SelectOneTo str tail args).2.2 = [args] := by
  simp only [Querier.SelectOneTo]
  cases hq : q.queryRow (osExpand str.view.toCol (q.selectQuery str.view tail true)) args with
  | error e => simp [sqlArgLists]
  | ok row =>
    by_cases hl : (row.length == str.values.length) = true
    · simp only [hl, if_true]
      cases str.afHook with
      | none => simp [sqlArgLists]
      | some h => simp [sqlArgLists]
    · simp only [Bool.not_eq_true] at hl
      simp [hl, sqlArgLists]

/-- Counterexample to claim C3: Reload on a record whose primary key is
unset does not return ErrNoPK; it issues the SELECT (one SQL call binding
the zero key value) and surfaces the stubbed driver error. -/
theorem C3_counterexample :
    rUnset.hasPK = false ∧
    ((qLastInsertId 7 1).Reload rUnset).1 = some (Err.other 9) ∧
    ((qLastInsertId 7 1).Reload rUnset).1 ≠ some Err.noPK ∧
    sqlArgLists ((qLastInsertId 7 1).Reload rUnset).2.2 = [[Value.vint 0]] := by
  refine ⟨by decide, by decide, by decide, by decide⟩

/-- Claim C3 (amended): Update, UpdateColumns and Delete on a record with
an unset primary key return ErrNoPK with an empty trace (no SQL, no hook);
Reload performs no such check and always issues its SELECT, binding the
record's current (zero) primary-key value. -/
theorem C3_missing_pk_amended (q : Querier) (r : RecStruct) (cols : List String)
    (hpk : r.hasPK = false) :
    ((q.Update r).1 = Res.err Err.noPK ∧ (q.Update r).2.2 = []) ∧
    ((q.UpdateColumns r cols).1 = Res.err Err.noPK ∧ (q.UpdateColumns r cols).2.2 = []) ∧
    ((q.Delete r).1 = Res.err Err.noPK ∧ (q.Delete r).2 = []) ∧
    sqlArgLists (q.Reload r).2.2 = [[r.pkValue]] := by
  refine ⟨⟨?_, ?_⟩, ⟨?_, ?_⟩, ⟨?_, ?_⟩, ?_⟩
  · simp [Querier.Update, Querier.beforeUpdate, hpk]
  · simp [Querier.Update, Querier.beforeUpdate, hpk]
  · simp [Querier.UpdateColumns, Querier.beforeUpdate, hpk]
  · simp [Querier.UpdateColumns, Querier.beforeUpdate, hpk]
  · simp [Querier.Delete, hpk]
  · simp [Querier.Delete, hpk]
  · simp only [Querier.Reload, Querier.FindByPrimaryKeyTo, Querier.FindOneTo, Querier.findTail]
    split <;> exact sqlArgLists_SelectOneTo q r _ _

/-- Witness for the amended C3 at the concrete unset record: the three
checked operations fail with ErrNoPK and Reload binds the zero key. -/
theorem C3_missing_pk_amended_witness :
    ((qLastInsertId 7 1).Update rUnset).1 = Res.err Err.noPK ∧
    sqlArgLists ((qLastInsertId 7 1).Reload rUnset).2.2 = [[Value.vint 0]] :=
  ⟨(C3_missing_pk_amended (qLastInsertId 7 1) rUnset [] (by decide)).1.1,
   (C3_missing_pk_amended (qLastInsertId 7 1) rUnset [] (by decide)).2.2.2⟩

end Reform

namespace Reform

/-- Claim C9: NextRow on an exhausted cursor returns the cursor's own error
when present and ErrNoRows otherwise; on a valid row it scans the row into
the struct's per-column pointers and then runs the post-fetch hook when the
struct supports it, keeping the populated (hook-adjusted) fields even when
the hook fails and surfacing the hook's failure. -/
theorem C9_nextrow_contract (q : Querier) (str : RecStruct) (rows : RowsStub) :
    (∀ e, rows.steps = [] → rows.termErr = some e →
      q.NextRow str rows = (some e, str, rows, [])) ∧
    (rows.steps = [] → rows.termErr = none →
      q.NextRow str rows = (some Err.noRows, str, rows, [])) ∧
    (∀ row rest, rows.steps = .ok row :: rest → row.length = str.values.length →
      str.afHook = none →
      q.NextRow str rows = (none, { str with values := row }, { rows with steps := rest }, [])) ∧
    (∀ row rest h vs oe, rows.steps = .ok row :: rest → row.length = str.values.length →
      str.afHook = some h → h row = (vs, oe) →
      q.NextRow str rows =
        (oe, { str with values := vs }, { rows with steps := rest }, [Event.hookAF str.sid])) := by
  refine ⟨?_, ?_, ?_, ?_⟩
  · intro e hs ht
    simp [Querier.NextRow, hs, ht]
  · intro hs ht
    simp [Querier.NextRow, hs, ht]
  · intro row rest hs hlen haf
    simp [Querier.NextRow, hs, hlen, haf]
  · intro row rest h vs oe hs hlen haf hh
    simp [Querier.NextRow, hs, hlen, haf, hh]

/-- Witness for C9 at a concrete struct with a failing post-fetch hook: the
row is scanned into the fields and the hook's failure is returned. -/
theorem C9_nextrow_contract_witness :
    (qLastInsertId 7 1).NextRow rAF
        { steps := [Except.ok [Value.vint 1, Value.vstr "x", Value.vint 2]],
          termErr := none, closeErr := none } =
      (some (Err.other 5),
       { rAF with values := [Value.vint 1, Value.vstr "x", Value.vint 2] },
       { steps := [], termErr := none, closeErr := none }, [Event.hookAF 30]) :=
  (C9_nextrow_contract (qLastInsertId 7 1) rAF
      { steps := [Except.ok [Value.vint 1, Value.vstr "x", Value.vint 2]],
        termErr := none, closeErr := none }).2.2.2
    [Value.vint 1, Value.vstr "x", Value.vint 2] []
    (fun vs => (vs, some (.other 5)))
    [Value.vint 1, Value.vstr "x", Value.vint 2] (some (Err.other 5))
    rfl (by decide) rfl rfl

end Reform

namespace Reform

/-- SelectOneFrom performs exactly one single-row query binding exactly the
given arguments. -/
theorem sqlArgLists_SelectOneFrom (q : Querier) (view : ViewInfo) (tail : String)
    (args : List Value) :
    sqlArgLists (q.SelectOneFrom view tail args).2 = [args] := by
  have h := sqlArgLists_SelectOneTo q view.newStruct tail args
  simp only [Querier.SelectOneFrom]
  rcases hst : q.SelectOneTo view.newStruct tail args with ⟨oe, str1, evs⟩
  rw [hst] at h
  cases oe <;> simpa using h

/-- Claim C10: for a nil comparison argument the find operations synthesize
the view-dot-column IS NULL predicate and bind no argument; for a non-nil
argument they synthesize equality against placeholder one and bind exactly
that argument.  Stated for findTail (with the LIMIT suffix of single-row
requests made explicit) and for the argument lists actually bound by
FindOneTo, FindOneFrom and FindRows. -/
theorem C10_find_null_predicate (q : Querier) (viewName column : String) (limit1 : Bool)
    (v : Value) (str : RecStruct) (view : ViewInfo) :
    (q.findTail viewName column none limit1 =
      ("WHERE " ++ q.quoteIdentifier viewName ++ "." ++ q.quoteIdentifier column ++
        " IS NULL" ++
        (if limit1 && (q.selectLimitMethod == .limit) then " LIMIT 1" else ""), false)) ∧
    (q.findTail viewName column (some v) limit1 =
      ("WHERE " ++ q.quoteIdentifier viewName ++ "." ++ q.quoteIdentifier column ++
        " = " ++ q.placeholder 1 ++
        (if limit1 && (q.selectLimitMethod == .limit) then " LIMIT 1" else ""), true)) ∧
    sqlArgLists (q.FindOneTo str column none).2.2 = [[]] ∧
    sqlArgLists (q.FindOneTo str column (some v)).2.2 = [[v]] ∧
    sqlArgLists (q.FindOneFrom view column none).2 = [[]] ∧
    sqlArgLists (q.FindOneFrom view column (some v)).2 = [[v]] ∧
    sqlArgLists (q.FindRows view column none).2 = [[]] ∧
    sqlArgLists (q.FindRows view column (some v)).2 = [[v]] := by
  refine ⟨?_, ?_, ?_, ?_, ?_, ?_, ?_, ?_⟩
  · simp only [Querier.findTail]
    split <;> simp_all [String.append_assoc]
  · simp only [Querier.findTail]
    split <;> simp_all [String.append_assoc]
  · simp only [Querier.FindOneTo, Querier.findTail]
    split <;> exact sqlArgLists_SelectOneTo q str _ _
  · simp only [Querier.FindOneTo, Querier.findTail]
    split <;> exact sqlArgLists_SelectOneTo q str _ _
  · simp only [Querier.FindOneFrom, Querier.findTail]
    split <;> exact sqlArgLists_SelectOneFrom q view _ _
  · simp only [Querier.FindOneFrom, Querier.findTail]
    split <;> exact sqlArgLists_SelectOneFrom q view _ _
  · simp only [Querier.FindRows, Querier.findTail, Querier.SelectRows]
    split <;> simp [sqlArgLists]
  · simp only [Querier.FindRows, Querier.findTail, Querier.SelectRows]
    split <;> simp [sqlArgLists]

end Reform

namespace Reform

/-- Specification of the selection pass: on success the selected columns
zipped with their values form a sublist of the input pairs (table order),
columns and values have equal length, every selected column came from the
requested set, and the selection is duplicate-free whenever the set is. -/
theorem filterPass_ok_spec (pk : Nat) (isUpd : Bool) :
    ∀ (pairs : List (String × Value)) (i : Nat) (set cs : List String) (vs : List Value)
      (leftover : List String),
      filterPass pk isUpd pairs i set = .ok (cs, vs, leftover) →
      (cs.zip vs).Sublist pairs ∧ cs.length = vs.length ∧ (∀ x ∈ cs, x ∈ set) ∧
        (set.Nodup → cs.Nodup) := by
  intro pairs
  induction pairs with
  | nil =>
    intro i set cs vs leftover h
    simp only [filterPass, Except.ok.injEq, Prod.mk.injEq] at h
    obtain ⟨h1, h2, h3⟩ := h
    subst h1; subst h2
    simp
  | cons cv rest ih =>
    rcases cv with ⟨c, v⟩
    intro i set cs vs leftover h
    simp only [filterPass] at h
    by_cases hc : c ∈ set
    · rw [if_pos hc] at h
      by_cases hpk : (isUpd && i == pk) = true
      · rw [if_pos hpk] at h
        exact absurd h (by simp)
      · rw [if_neg hpk] at h
        cases hrec : filterPass pk isUpd rest (i + 1) (set.erase c) with
        | error e =>
          rw [hrec] at h
          exact absurd h (by simp)
        | ok out =>
          rcases out with ⟨cs1, vs1, left1⟩
          rw [hrec] at h
          simp only [Except.ok.injEq, Prod.mk.injEq] at h
          obtain ⟨h1, h2, h3⟩ := h
          subst h1; subst h2
          obtain ⟨hsub, hlen, hmem, hnd⟩ := ih (i + 1) (set.erase c) cs1 vs1 left1 hrec
          refine ⟨?_, ?_, ?_, ?_⟩
          · simpa using hsub.cons₂ (c, v)
          · simpa using hlen
          · intro x hx
            rcases List.mem_cons.mp hx with hx | hx
            · exact hx ▸ hc
            · exact List.mem_of_mem_erase (hmem x hx)
          · intro hset
            refine List.nodup_cons.mpr ⟨?_, hnd (hset.erase c)⟩
            intro hcmem
            have := (hset.mem_erase_iff).mp (hmem c hcmem)
            exact this.1 rfl
    · rw [if_neg hc] at h
      obtain ⟨hsub, hlen, hmem, hnd⟩ := ih (i + 1) set cs vs leftover h
      exact ⟨hsub.cons (c, v), hlen, hmem, hnd⟩

/-- The requested-set construction keeps the set duplicate-free. -/
theorem buildSet_nodup (toCol : String → String) (cols : List String) :
    (buildSet toCol cols).Nodup := by
  suffices h : ∀ (acc : List String), acc.Nodup →
      (cols.foldl (fun s c => insertSet s (toCol (trimLeftDollar c))) acc).Nodup by
    exact h [] List.nodup_nil
  induction cols with
  | nil => intro acc hacc; exact hacc
  | cons c rest ih =>
    intro acc hacc
    refine ih _ ?_
    simp only [insertSet]
    split
    · exact hacc
    · next hnot => simpa [List.nodup_append] using ⟨hacc, fun h => hnot h⟩

/-- Claim C6: on success the Column/Value filter returns columns and values
that are equal-length (aligned), the column-value pairs form a sublist of
the table's column-value pairs (a table-ordered subset), and the columns
are duplicate-free; as a pure function it leaves its record and requested
list inputs untouched. -/
theorem C6_filter_aligned_subset (r : RecStruct) (cols : List String) (isUpd : Bool)
    (cs : List String) (vs : List Value)
    (h : filteredColumnsAndValues r cols isUpd = .ok (cs, vs)) :
    cs.length = vs.length ∧ (cs.zip vs).Sublist (r.view.columns.zip r.values) ∧ cs.Nodup := by
  simp only [filteredColumnsAndValues] at h
  cases hfp : filterPass r.view.pkIndex isUpd (r.view.columns.zip r.values) 0
      (buildSet r.view.toCol cols) with
  | error e =>
    rw [hfp] at h
    exact absurd h (by simp)
  | ok out =>
    rcases out with ⟨cs1, vs1, left1⟩
    rw [hfp] at h
    dsimp only at h
    by_cases hleft : left1.isEmpty = true
    · rw [if_pos hleft] at h
      simp only [Except.ok.injEq, Prod.mk.injEq] at h
      obtain ⟨h1, h2⟩ := h
      subst h1; subst h2
      obtain ⟨hsub, hlen, _, hnd⟩ :=
        filterPass_ok_spec r.view.pkIndex isUpd (r.view.columns.zip r.values) 0
          (buildSet r.view.toCol cols) cs1 vs1 left1 hfp
      exact ⟨hlen, hsub, hnd (buildSet_nodup r.view.toCol cols)⟩
    · rw [if_neg hleft] at h
      exact absurd h (by simp)

/-- Witness for C6 at a concrete record and request: requesting the exposed
field name Name (dollar-escaped) and the column age yields the aligned
table-ordered pair list. -/
theorem C6_filter_aligned_subset_witness :
    (["name", "age"] : List String).length = ([Value.vstr "a", Value.vint 30] : List Value).length ∧
    ((["name", "age"] : List String).zip [Value.vstr "a", Value.vint 30]).Sublist
      (rSet.view.columns.zip rSet.values) ∧
    (["name", "age"] : List String).Nodup :=
  C6_filter_aligned_subset rSet ["$Name", "age"] false ["name", "age"]
    [Value.vstr "a", Value.vint 30] (by decide)

end Reform

namespace Reform

/-- Membership in the set-insertion helper. -/
theorem insertSet_mem (s : List String) (y x : String) :
    x ∈ insertSet s y ↔ x ∈ s ∨ x = y := by
  simp only [insertSet]
  split
  · next hy =>
    constructor
    · exact Or.inl
    · rintro (h | h)
      · exact h
      · exact h ▸ hy
  · simp [List.mem_append]

/-- Membership in the requested-set: exactly the normalizations of the
requested names. -/
theorem buildSet_mem (toCol : String → String) (cols : List String) (x : String) :
    x ∈ buildSet toCol cols ↔ ∃ c ∈ cols, toCol (trimLeftDollar c) = x := by
  suffices h : ∀ acc, x ∈ cols.foldl (fun s c => insertSet s (toCol (trimLeftDollar c))) acc ↔
      x ∈ acc ∨ ∃ c ∈ cols, toCol (trimLeftDollar c) = x by
    simpa [buildSet] using h []
  induction cols with
  | nil => intro acc; simp
  | cons c rest ih =>
    intro acc
    rw [List.foldl_cons, ih, insertSet_mem]
    constructor
    · rintro ((h | h) | ⟨d, hd, hx⟩)
      · exact Or.inl h
      · exact Or.inr ⟨c, List.mem_cons_self c rest, h.symm⟩
      · exact Or.inr ⟨d, List.mem_cons_of_mem c hd, hx⟩
    · rintro (h | ⟨d, hd, hx⟩)
      · exact Or.inl (Or.inl h)
      · rcases List.mem_cons.mp hd with hd | hd
        · subst hd
          exact Or.inl (Or.inr hx.symm)
        · exact Or.inr ⟨d, hd, hx⟩

/-- The selection pass never fails in insert mode. -/
theorem filterPass_false_ok (pk : Nat) :
    ∀ (pairs : List (String × Value)) (i : Nat) (set : List String),
      ∃ out, filterPass pk false pairs i set = .ok out := by
  intro pairs
  induction pairs with
  | nil => intro i set; exact ⟨([], [], set), rfl⟩
  | cons cv0 rest ih =>
    rcases cv0 with ⟨c, v⟩
    intro i set
    simp only [filterPass]
    by_cases hc : c ∈ set
    · rw [if_pos hc, if_neg (by simp)]
      obtain ⟨out, hout⟩ := ih (i + 1) (set.erase c)
      rcases out with ⟨cs1, vs1, l1⟩
      rw [hout]
      exact ⟨(c :: cs1, v :: vs1, l1), rfl⟩
    · rw [if_neg hc]
      exact ih (i + 1) set

/-- An update-mode failure of the selection pass pinpoints the primary-key
position: the pair at absolute index pk exists and its column is still in
the requested set. -/
theorem filterPass_error_pk (pk : Nat) :
    ∀ (pairs : List (String × Value)) (i : Nat) (set : List String) (e : Err),
      filterPass pk true pairs i set = .error e →
      ∃ cv, pairs.get? (pk - i) = some cv ∧ i ≤ pk ∧ cv.1 ∈ set := by
  intro pairs
  induction pairs with
  | nil =>
    intro i set e h
    simp [filterPass] at h
  | cons cv0 rest ih =>
    rcases cv0 with ⟨c, v⟩
    intro i set e h
    simp only [filterPass] at h
    by_cases hc : c ∈ set
    · rw [if_pos hc] at h
      by_cases hip : (true && (i == pk)) = true
      · have hipk : i = pk := by simpa using hip
        refine ⟨(c, v), ?_, by omega, hc⟩
        simp [hipk]
      · rw [if_neg hip] at h
        cases hrec : filterPass pk true rest (i + 1) (set.erase c) with
        | error e2 =>
          obtain ⟨cv, hg, hle, hmem⟩ := ih (i + 1) (set.erase c) e2 hrec
          refine ⟨cv, ?_, by omega, List.mem_of_mem_erase hmem⟩
          have h1 : pk - i = (pk - (i + 1)) + 1 := by omega
          rw [h1]
          simpa using hg
        | ok out =>
          rcases out with ⟨cs1, vs1, l1⟩
          rw [hrec] at h
          exact absurd h (by simp)
    · rw [if_neg hc] at h
      obtain ⟨cv, hg, hle, hmem⟩ := ih (i + 1) set e h
      refine ⟨cv, ?_, by omega, hmem⟩
      have h1 : pk - i = (pk - (i + 1)) + 1 := by omega
      rw [h1]
      simpa using hg

/-- When update mode succeeds it returns exactly what insert mode
returns. -/
theorem filterPass_true_ok_eq (pk : Nat) :
    ∀ (pairs : List (String × Value)) (i : Nat) (set : List String) out,
      filterPass pk true pairs i set = .ok out →
      filterPass pk false pairs i set = .ok out := by
  intro pairs
  induction pairs with
  | nil =>
    intro i set out h
    simpa [filterPass] using h
  | cons cv0 rest ih =>
    rcases cv0 with ⟨c, v⟩
    intro i set out h
    simp only [filterPass] at h ⊢
    by_cases hc : c ∈ set
    · rw [if_pos hc] at h ⊢
      rw [if_neg (by simp)]
      by_cases hip : (true && (i == pk)) = true
      · rw [if_pos hip] at h
        exact absurd h (by simp)
      · rw [if_neg hip] at h
        cases hrec : filterPass pk true rest (i + 1) (set.erase c) with
        | error e2 =>
          rw [hrec] at h
          exact absurd h (by simp)
        | ok out1 =>
          rcases out1 with ⟨cs1, vs1, l1⟩
          rw [hrec] at h
          rw [ih (i + 1) (set.erase c) (cs1, vs1, l1) hrec]
          exact h
    · rw [if_neg hc] at h ⊢
      exact ih (i + 1) set out h

/-- Leftover characterization of the selection pass: with a duplicate-free
set, a name remains in the leftover exactly when it was requested and
matches none of the walked columns. -/
theorem filterPass_leftover_mem (pk : Nat) (isUpd : Bool) :
    ∀ (pairs : List (String × Value)) (i : Nat) (set cs : List String) (vs : List Value)
      (leftover : List String), set.Nodup →
      filterPass pk isUpd pairs i set = .ok (cs, vs, leftover) →
      ∀ x, x ∈ leftover ↔ (x ∈ set ∧ x ∉ pairs.map Prod.fst) := by
  intro pairs
  induction pairs with
  | nil =>
    intro i set cs vs leftover hnd h x
    simp only [filterPass, Except.ok.injEq, Prod.mk.injEq] at h
    obtain ⟨h1, h2, h3⟩ := h
    subst h3
    simp
  | cons cv0 rest ih =>
    rcases cv0 with ⟨c, v⟩
    intro i set cs vs leftover hnd h x
    simp only [filterPass] at h
    by_cases hc : c ∈ set
    · rw [if_pos hc] at h
      by_cases hip : (isUpd && (i == pk)) = true
      · rw [if_pos hip] at h
        exact absurd h (by simp)
      · rw [if_neg hip] at h
        cases hrec : filterPass pk isUpd rest (i + 1) (set.erase c) with
        | error e =>
          rw [hrec] at h
          exact absurd h (by simp)
        | ok out1 =>
          rcases out1 with ⟨cs1, vs1, l1⟩
          rw [hrec] at h
          simp only [Except.ok.injEq, Prod.mk.injEq] at h
          obtain ⟨h1, h2, h3⟩ := h
          subst h3
          rw [ih (i + 1) (set.erase c) cs1 vs1 l1 (hnd.erase c) hrec x,
            hnd.mem_erase_iff]
          simp only [List.map_cons, List.mem_cons]
          constructor
          · rintro ⟨⟨hxc, hxs⟩, hnr⟩
            refine ⟨hxs, fun hmem => ?_⟩
            rcases hmem with h | h
            · exact hxc h
            · exact hnr h
          · rintro ⟨hxs, hnot⟩
            exact ⟨⟨fun hxc => hnot (Or.inl hxc), hxs⟩, fun hr => hnot (Or.inr hr)⟩
    · rw [if_neg hc] at h
      rw [ih (i + 1) set cs vs leftover hnd h x]
      simp only [List.map_cons, List.mem_cons]
      constructor
      · rintro ⟨hxs, hnr⟩
        refine ⟨hxs, fun hmem => ?_⟩
        rcases hmem with hxc | hr
        · subst hxc
          exact hc hxs
        · exact hnr hr
      · rintro ⟨hxs, hnot⟩
        exact ⟨hxs, fun hr => hnot (Or.inr hr)⟩

end Reform

namespace Reform

/-- Claim C7: a requested list containing names that match no table column
after normalization makes the Column/Value filter fail in both modes with
one validation error naming every unmatched column (not just the first),
and InsertColumns and UpdateColumns surface that error with no SQL
executed.  The hypotheses fix the record invariant (aligned lengths), the
presence of at least one unmatched name, the primary-key column not being
requested (so update mode reaches the same validation), a set primary key
and no hooks (so the update path reaches the filter). -/
theorem C7_unknown_columns_all_named (q : Querier) (r : RecStruct) (cols : List String)
    (hlen : r.values.length = r.view.columns.length)
    (hbad : ∃ x ∈ buildSet r.view.toCol cols, x ∉ r.view.columns)
    (hpkcol : r.view.columns.getD r.view.pkIndex "" ∉ buildSet r.view.toCol cols)
    (hbih : r.biHook = none) (hbuh : r.buHook = none) (hpk : r.hasPK = true) :
    ∃ l, filteredColumnsAndValues r cols false = .error (.unexpectedColumns l) ∧
      filteredColumnsAndValues r cols true = .error (.unexpectedColumns l) ∧
      (∀ x, x ∈ l ↔ ((∃ c ∈ cols, r.view.toCol (trimLeftDollar c) = x) ∧
        x ∉ r.view.columns)) ∧
      (q.InsertColumns r cols).1 = Res.err (.unexpectedColumns l) ∧
      sqlEvents (q.InsertColumns r cols).2.2 = [] ∧
      (q.UpdateColumns r cols).1 = Res.err (.unexpectedColumns l) ∧
      sqlEvents (q.UpdateColumns r cols).2.2 = [] := by
  obtain ⟨out, hfalse⟩ :=
    filterPass_false_ok r.view.pkIndex (r.view.columns.zip r.values) 0
      (buildSet r.view.toCol cols)
  rcases out with ⟨cs1, vs1, l1⟩
  have hmap : (r.view.columns.zip r.values).map Prod.fst = r.view.columns :=
    List.map_fst_zip r.view.columns r.values (by omega)
  have hl1 : ∀ x, x ∈ l1 ↔ (x ∈ buildSet r.view.toCol cols ∧ x ∉ r.view.columns) := by
    intro x
    have := filterPass_leftover_mem r.view.pkIndex false (r.view.columns.zip r.values) 0
      (buildSet r.view.toCol cols) cs1 vs1 l1 (buildSet_nodup r.view.toCol cols) hfalse x
    rwa [hmap] at this
  have hne : ¬(l1.isEmpty = true) := by
    obtain ⟨x, hx1, hx2⟩ := hbad
    intro hh
    rw [List.isEmpty_iff] at hh
    subst hh
    exact absurd ((hl1 x).mpr ⟨hx1, hx2⟩) (by simp)
  have ffalse : filteredColumnsAndValues r cols false = .error (.unexpectedColumns l1) := by
    simp only [filteredColumnsAndValues]
    rw [hfalse]
    dsimp only
    rw [if_neg hne]
  have ftrue : filteredColumnsAndValues r cols true = .error (.unexpectedColumns l1) := by
    cases hT : filterPass r.view.pkIndex true (r.view.columns.zip r.values) 0
        (buildSet r.view.toCol cols) with
    | error e =>
      exfalso
      obtain ⟨cv, hg, _, hmem⟩ :=
        filterPass_error_pk r.view.pkIndex (r.view.columns.zip r.values) 0
          (buildSet r.view.toCol cols) e hT
      simp only [Nat.sub_zero] at hg
      have hcol : r.view.columns.get? r.view.pkIndex = some cv.1 :=
        ((List.get?_zip_eq_some r.view.columns r.values cv r.view.pkIndex).mp hg).1
      have : r.view.columns.getD r.view.pkIndex "" = cv.1 := by
        rw [List.getD_eq_getElem?_getD, ← List.get?_eq_getElem?, hcol]
        rfl
      rw [this] at hpkcol
      exact hpkcol hmem
    | ok out2 =>
      rcases out2 with ⟨cs2, vs2, l2⟩
      have := filterPass_true_ok_eq r.view.pkIndex (r.view.columns.zip r.values) 0
        (buildSet r.view.toCol cols) (cs2, vs2, l2) hT
      rw [hfalse] at this
      simp only [Except.ok.injEq, Prod.mk.injEq] at this
      obtain ⟨e1, e2, e3⟩ := this
      subst e1; subst e2; subst e3
      simp only [filteredColumnsAndValues]
      rw [hT]
      dsimp only
      rw [if_neg hne]
  refine ⟨l1, ffalse, ftrue, ?_, ?_, ?_, ?_, ?_⟩
  · intro x
    rw [hl1 x, buildSet_mem]
  · simp [Querier.InsertColumns, beforeInsertStep, hbih, ffalse]
  · simp [Querier.InsertColumns, beforeInsertStep, hbih, ffalse, sqlEvents]
  · simp [Querier.UpdateColumns, Querier.beforeUpdate, hpk, hbuh, ftrue]
  · simp [Querier.UpdateColumns, Querier.beforeUpdate, hpk, hbuh, ftrue, sqlEvents]

/-- Witness for C7 at a concrete record and request: the unknown names
bogus and junk (and only they) are reported, with no SQL executed. -/
theorem C7_unknown_columns_all_named_witness :
    ∃ l, filteredColumnsAndValues rSet ["bogus", "name", "junk"] false =
        .error (.unexpectedColumns l) ∧
      filteredColumnsAndValues rSet ["bogus", "name", "junk"] true =
        .error (.unexpectedColumns l) ∧
      (∀ x, x ∈ l ↔ ((∃ c ∈ ["bogus", "name", "junk"],
        rSet.view.toCol (trimLeftDollar c) = x) ∧ x ∉ rSet.view.columns)) ∧
      ((qLastInsertId 7 1).InsertColumns rSet ["bogus", "name", "junk"]).1 =
        Res.err (.unexpectedColumns l) ∧
      sqlEvents ((qLastInsertId 7 1).InsertColumns rSet ["bogus", "name", "junk"]).2.2 = [] ∧
      ((qLastInsertId 7 1).UpdateColumns rSet ["bogus", "name", "junk"]).1 =
        Res.err (.unexpectedColumns l) ∧
      sqlEvents ((qLastInsertId 7 1).UpdateColumns rSet ["bogus", "name", "junk"]).2.2 = [] :=
  C7_unknown_columns_all_named (qLastInsertId 7 1) rSet ["bogus", "name", "junk"]
    (by decide) ⟨"bogus", by decide, by decide⟩ (by decide) rfl rfl (by decide)

end Reform

namespace Reform

/-- The iteration of SelectAllFrom never produces the ErrNoRows sentinel as
its error: every NextRow error equal to the sentinel is mapped to a clean
end. -/
theorem selectAllLoop_ne_noRows (q : Querier) (view : ViewInfo) :
    ∀ (fuel : Nat) (rows : RowsStub),
      (selectAllLoop q view fuel rows).2.1 ≠ some Err.noRows := by
  intro fuel
  induction fuel with
  | zero => intro rows; simp [selectAllLoop]
  | succ n ih =>
    intro rows
    simp only [selectAllLoop]
    rcases hnr : q.NextRow view.newStruct rows with ⟨oe, str1, rows1, evs⟩
    cases oe with
    | some e =>
      dsimp only
      split
      · simp
      · next hne => simpa using hne
    | none =>
      dsimp only
      exact ih rows1

/-- Valid rows at the front of the cursor materialize one struct each,
in cursor order, and the iteration continues on the remaining steps (no
post-fetch hook on the view's struct type). -/
theorem selectAllLoop_ok_rows (q : Querier) (view : ViewInfo) (hAF : view.tAF = none) :
    ∀ (rowsL : List (List Value)), (∀ row ∈ rowsL, row.length = view.newValues.length) →
      ∀ (k : Nat) (rest : List (Except Err (List Value))) (te ce : Option Err),
        selectAllLoop q view (rowsL.length + k)
            { steps := rowsL.map .ok ++ rest, termErr := te, closeErr := ce } =
          ((rowsL.map (fun row => { view.newStruct with values := row })) ++
             (selectAllLoop q view k { steps := rest, termErr := te, closeErr := ce }).1,
           (selectAllLoop q view k { steps := rest, termErr := te, closeErr := ce }).2.1,
           (selectAllLoop q view k { steps := rest, termErr := te, closeErr := ce }).2.2) := by
  intro rowsL
  induction rowsL with
  | nil =>
    intro hrows k rest te ce
    simp
  | cons row rowsT ih =>
    intro hrows k rest te ce
    have hlen : row.length = view.newValues.length := hrows row (by simp)
    have hfuel : (row :: rowsT).length + k = (rowsT.length + k) + 1 := by
      simp only [List.length_cons]
      omega
    rw [hfuel]
    simp only [selectAllLoop]
    have hnr : q.NextRow view.newStruct
        { steps := (row :: rowsT).map .ok ++ rest, termErr := te, closeErr := ce } =
        (none, { view.newStruct with values := row },
         { steps := rowsT.map .ok ++ rest, termErr := te, closeErr := ce },
         ([] : List Event)) := by
      simp only [Querier.NextRow, List.map_cons, List.cons_append]
      have hb : (row.length == (ViewInfo.newStruct view).values.length) = true := by
        simp [ViewInfo.newStruct, hlen]
      rw [hb]
      simp [ViewInfo.newStruct, hAF]
    rw [hnr]
    dsimp only
    rw [ih (fun r hr => hrows r (by simp [hr])) k rest te ce]
    simp

end Reform


namespace Reform

/-- Claim C8: SelectAllFrom returns exactly the structs materialized before
a mid-iteration failure together with that failure (whether a failing step
or a cursor-end error), an all-good cursor with a clean end yields all
structs and a nil error, and SelectAllFrom never returns the ErrNoRows
sentinel (given that the connection's own query error and the cursor's
close error are not that sentinel, as a driver never returns it from Query
or Close). -/
theorem C8_selectall_partial_results (q : Querier) (view : ViewInfo) (tail : String)
    (args : List Value) (rowsL : List (List Value)) (e : Err)
    (hAF : view.tAF = none)
    (hrows : ∀ row ∈ rowsL, row.length = view.newValues.length)
    (hne : e ≠ Err.noRows) :
    (∀ restSteps te ce,
      (∀ s a, q.query s a = .ok ⟨rowsL.map .ok ++ (.error e :: restSteps), te, ce⟩) →
      (q.SelectAllFrom view tail args).1 =
        rowsL.map (fun row => { view.newStruct with values := row }) ∧
      (q.SelectAllFrom view tail args).2.1 = some e) ∧
    (∀ ce, (∀ s a, q.query s a = .ok ⟨rowsL.map .ok, some e, ce⟩) →
      (q.SelectAllFrom view tail args).1 =
        rowsL.map (fun row => { view.newStruct with values := row }) ∧
      (q.SelectAllFrom view tail args).2.1 = some e) ∧
    ((∀ s a, q.query s a = .ok ⟨rowsL.map .ok, none, none⟩) →
      (q.SelectAllFrom view tail args).1 =
        rowsL.map (fun row => { view.newStruct with values := row }) ∧
      (q.SelectAllFrom view tail args).2.1 = none) ∧
    (∀ rows, (∀ s a, q.query s a = .ok rows) → rows.closeErr ≠ some Err.noRows →
      (q.SelectAllFrom view tail args).2.1 ≠ some Err.noRows) ∧
    (∀ e2, (∀ s a, q.query s a = .error e2) → e2 ≠ Err.noRows →
      (q.SelectAllFrom view tail args).2.1 ≠ some Err.noRows) := by
  refine ⟨?_, ?_, ?_, ?_, ?_⟩
  · intro restSteps te ce hq
    simp only [Querier.SelectAllFrom, hq]
    have hfuel : (RowsStub.mk (rowsL.map .ok ++ (.error e :: restSteps)) te ce).steps.length
        + 1 = rowsL.length + (restSteps.length + 2) := by
      simp
      omega
    rw [hfuel, selectAllLoop_ok_rows q view hAF rowsL hrows (restSteps.length + 2)
      (.error e :: restSteps) te ce]
    have hloop : selectAllLoop q view (restSteps.length + 2)
        ⟨.error e :: restSteps, te, ce⟩ = ([], some e, []) := by
      have h2 : restSteps.length + 2 = (restSteps.length + 1) + 1 := by omega
      rw [h2]
      simp [selectAllLoop, Querier.NextRow, hne]
    rw [hloop]
    simp
  · intro ce hq
    simp only [Querier.SelectAllFrom, hq]
    have hfuel : (RowsStub.mk (rowsL.map .ok) (some e) ce).steps.length + 1 =
        rowsL.length + 1 := by simp
    rw [hfuel]
    have hsplit := selectAllLoop_ok_rows q view hAF rowsL hrows 1 [] (some e) ce
    simp only [List.append_nil] at hsplit
    rw [hsplit]
    have hloop : selectAllLoop q view 1 ⟨[], some e, ce⟩ = ([], some e, []) := by
      simp [selectAllLoop, Querier.NextRow, hne]
    rw [hloop]
    simp
  · intro hq
    simp only [Querier.SelectAllFrom, hq]
    have hfuel : (RowsStub.mk (rowsL.map .ok) none none).steps.length + 1 =
        rowsL.length + 1 := by simp
    rw [hfuel]
    have hsplit := selectAllLoop_ok_rows q view hAF rowsL hrows 1 [] none none
    simp only [List.append_nil] at hsplit
    rw [hsplit]
    have hloop : selectAllLoop q view 1 ⟨[], none, none⟩ = ([], none, []) := by
      simp [selectAllLoop, Querier.NextRow]
    rw [hloop]
    simp
  · intro rows hq hce
    simp only [Querier.SelectAllFrom, hq]
    rcases hloop : selectAllLoop q view (rows.steps.length + 1) rows with ⟨strs, err, evs⟩
    have hno := selectAllLoop_ne_noRows q view (rows.steps.length + 1) rows
    rw [hloop] at hno
    cases err with
    | none => simpa using hce
    | some e2 => simpa using hno
  · intro e2 hq hne2
    simp [Querier.SelectAllFrom, hq, hne2]

end Reform

namespace Reform

/-- Witness for C8 at a concrete cursor: two valid rows then a failing step
yield exactly the two materialized structs and that error. -/
theorem C8_selectall_partial_results_witness :
    ((qRows ⟨[.ok [Value.vint 1, Value.vstr "x", Value.vint 2],
        .ok [Value.vint 3, Value.vstr "y", Value.vint 4],
        .error (Err.other 42)], none, none⟩).SelectAllFrom vPeople "" []).1 =
      [{ vPeople.newStruct with values := [Value.vint 1, Value.vstr "x", Value.vint 2] },
       { vPeople.newStruct with values := [Value.vint 3, Value.vstr "y", Value.vint 4] }] ∧
    ((qRows ⟨[.ok [Value.vint 1, Value.vstr "x", Value.vint 2],
        .ok [Value.vint 3, Value.vstr "y", Value.vint 4],
        .error (Err.other 42)], none, none⟩).SelectAllFrom vPeople "" []).2.1 =
      some (Err.other 42) :=
  (C8_selectall_partial_results
      (qRows ⟨[.ok [Value.vint 1, Value.vstr "x", Value.vint 2],
        .ok [Value.vint 3, Value.vstr "y", Value.vint 4],
        .error (Err.other 42)], none, none⟩)
      vPeople "" []
      [[Value.vint 1, Value.vstr "x", Value.vint 2],
       [Value.vint 3, Value.vstr "y", Value.vint 4]]
      (Err.other 42) rfl (by decide) (by decide)).1 [] none none (fun _ _ => rfl)

end Reform
